import Mathlib

/-! # Amotekun/web-socket: duplex sessions, acceptor and close discipline

A shallow embedding of the four programs of the repository

* `src/multi-threaded/server/server.cpp`  (namespace `MTServer`)
* `src/multi-threaded/client/client.cpp`  (namespace `MTClient`)
* `src/single-threaded/client/client.cpp` (namespace `STClient`)
* `src/single-threaded/server/server.cpp` (namespace `STServer`)

The transport (`socket`, `connect`, `accept`, `send`, `recv`, `read`, `close`)
and `getline(cin, _)` are the environment: what a call returns is the label of
the step that performs the call.  Every load and every store of an
`atomic<bool>` flag is a step of its own, so that a list of steps is an
interleaving of the threads under sequential consistency.
-/

namespace WebSocket

/-! ## Bytes, messages and the receive buffer -/

/-- One `char` of a message or of the receive buffer. -/
abbrev Byte := Fin 256

/-- A message unit: the bytes of a `std::string`, or the bytes one receive stored. -/
abbrev Msg := List Byte

/-- The string literal `"quit()"`. -/
def quitToken : Msg := [113, 117, 105, 116, 40, 41]

/-- The string literal `"exit()"`. -/
def exitToken : Msg := [101, 120, 105, 116, 40, 41]

/-- The bytes of a string literal whose characters are all below 256. -/
def literal (s : String) : Msg := s.toList.map (fun c => Fin.ofNat c.toNat)

/-- Size of `char buffer[1024]`. -/
def BUFSIZE : Nat := 1024

/-- The largest byte count requested from the transport: `sizeof(buffer) - 1`. -/
def MAXRECV : Nat := BUFSIZE - 1

/-- Result of `memset(buffer, 0, sizeof(buffer))`. -/
def memsetZero : List Byte := List.replicate BUFSIZE 0

/-- What `recv`/`read` leaves in the buffer when it stores `payload` at its start.
`none` when the payload exceeds the requested maximum `sizeof(buffer) - 1`. -/
def recvInto (buf : List Byte) (payload : Msg) : Option (List Byte) :=
  if payload.length ≤ MAXRECV then some (payload ++ buf.drop payload.length) else none

/-- The assignment `buffer[i] = b`; `none` when `i` is outside the array. -/
def bufferSet (buf : List Byte) (i : Nat) (b : Byte) : Option (List Byte) :=
  if i < buf.length then some (buf.set i b) else none

/-- The C string held in a buffer: the bytes before the first NUL. -/
def cstr (buf : List Byte) : Msg := buf.takeWhile (fun b => b != 0)

/-- The test `strcmp(buffer, lit) == 0` against a literal without NUL bytes. -/
def strcmpEq (buf : List Byte) (lit : Msg) : Bool := cstr buf == lit

/-- What a call of `recv` (or `read`) returned. -/
inductive RecvResult where
  /-- The call stored `payload` in the buffer and returned `payload.length`
  (zero bytes: the peer closed its write side). -/
  | bytes (payload : Msg)
  /-- The call failed and returned the negative number `-(k+1)`. -/
  | error (k : Nat)
  deriving DecidableEq, Repr

/-- The `int` returned by the receive call. -/
def RecvResult.bytesRead : RecvResult → Int
  | .bytes payload => (payload.length : Int)
  | .error k => Int.negSucc k

/-- The buffer after `memset(buffer, 0, sizeof(buffer))` and the receive call.
`none` when the transport stored more than the requested maximum. -/
def RecvResult.buffer : RecvResult → Option (List Byte)
  | .bytes payload => recvInto memsetZero payload
  | .error _ => some memsetZero

/-! ## Multi-threaded server: one `handleClient` session -/

namespace MTServer

/-- Where the thread running the lambda `receiveMessages` stands. -/
inductive RecvPc where
  /-- About to evaluate `while (clientRunning)`. -/
  | loop
  /-- Inside `recv`, which has been called and has not returned. -/
  | recv
  /-- About to execute `clientRunning = false; break;`. -/
  | stop
  /-- The lambda has returned. -/
  | done
  deriving DecidableEq, Repr

/-- Where the thread running the lambda `sendMessages` stands. -/
inductive SendPc where
  /-- About to evaluate `while (clientRunning)`. -/
  | loop
  /-- Inside `getline(cin, message)`. -/
  | input
  /-- Holding `message`, about to execute `if (message == "quit()")`. -/
  | token (message : Msg)
  /-- About to call `send` with `message`. -/
  | send (message : Msg)
  /-- The send failed: about to execute `clientRunning = false; break;`. -/
  | fail
  /-- About to evaluate the final `if (!clientRunning) break;`. -/
  | check
  /-- The lambda has returned. -/
  | done
  deriving DecidableEq, Repr

/-- One call `handleClient(clientSocket)`: its local flag, its two threads, and
a record of the calls it has made. -/
structure Session where
  /-- The parameter `clientSocket`. -/
  clientSocket : Int
  /-- The local `atomic<bool> clientRunning`. -/
  clientRunning : Bool
  rpc : RecvPc
  spc : SendPc
  /-- Number of `recv` calls made so far. -/
  recvCalls : Nat
  /-- Number of `getline` calls made so far. -/
  inputReads : Nat
  /-- The messages handed to `send`, oldest first. -/
  sent : List Msg
  /-- Whether `handleClient` has executed `close(clientSocket)` and returned. -/
  closed : Bool
  deriving DecidableEq, Repr

/-- The session as `handleClient(h)` starts it: `clientRunning(true)`, both
threads at the head of their loops. -/
def Session.start (h : Int) : Session :=
  { clientSocket := h, clientRunning := true, rpc := .loop, spc := .loop,
    recvCalls := 0, inputReads := 0, sent := [], closed := false }

/-- The steps of the two threads of a session. -/
inductive Action where
  /-- Receiver: evaluate `while (clientRunning)`; when true, clear the buffer and call `recv`. -/
  | recvTest
  /-- Receiver: `recv` returns; run the body up to the next access of the flag. -/
  | recvReturn (r : RecvResult)
  /-- Receiver: `clientRunning = false; break;`. -/
  | recvStop
  /-- Sender: evaluate `while (clientRunning)`; when true, prompt and call `getline`. -/
  | sendTest
  /-- Sender: `getline` returns with `message`. -/
  | sendInput (message : Msg)
  /-- Sender: `if (message == "quit()") clientRunning = false;`. -/
  | sendToken
  /-- Sender: `send(socket, message.c_str(), message.length(), 0)` returns `ret`. -/
  | sendCall (ret : Int)
  /-- Sender: `clientRunning = false; break;` after a failed send. -/
  | sendFail
  /-- Sender: `if (!clientRunning) break;`. -/
  | sendCheck
  deriving DecidableEq, Repr

/-- The body of `receiveMessages` after `recv` returned, up to the next access
of the flag.  `none`: the write `buffer[bytesRead]` falls outside the buffer. -/
def receiveMessages (s : Session) (r : RecvResult) : Option Session :=
  r.buffer.bind (fun buffer =>
    if r.bytesRead > 0 then
      (bufferSet buffer r.bytesRead.toNat 0).map (fun buffer =>
        if strcmpEq buffer quitToken || strcmpEq buffer exitToken then
          { s with rpc := .stop }
        else
          { s with rpc := .loop })
    else if r.bytesRead = 0 then
      some { s with rpc := .stop }
    else
      some { s with rpc := .stop })

/-- One step of a session; `none` when the thread is not at that statement. -/
def step (s : Session) : Action → Option Session
  | .recvTest =>
    if s.rpc = .loop then
      if s.clientRunning then some { s with rpc := .recv, recvCalls := s.recvCalls + 1 }
      else some { s with rpc := .done }
    else none
  | .recvReturn r =>
    if s.rpc = .recv then receiveMessages s r else none
  | .recvStop =>
    if s.rpc = .stop then some { s with clientRunning := false, rpc := .done } else none
  | .sendTest =>
    if s.spc = .loop then
      if s.clientRunning then some { s with spc := .input, inputReads := s.inputReads + 1 }
      else some { s with spc := .done }
    else none
  | .sendInput message =>
    if s.spc = .input then some { s with spc := .token message } else none
  | .sendToken =>
    match s.spc with
    | .token message =>
      if message = quitToken then some { s with clientRunning := false, spc := .send message }
      else some { s with spc := .send message }
    | _ => none
  | .sendCall ret =>
    match s.spc with
    | .send message =>
      if ret < 0 then some { s with sent := s.sent ++ [message], spc := .fail }
      else some { s with sent := s.sent ++ [message], spc := .check }
    | _ => none
  | .sendFail =>
    if s.spc = .fail then some { s with clientRunning := false, spc := .done } else none
  | .sendCheck =>
    if s.spc = .check then
      if !s.clientRunning then some { s with spc := .done } else some { s with spc := .loop }
    else none

/-- An interleaving: the steps taken one after the other. -/
def run (s : Session) : List Action → Option Session
  | [] => some s
  | a :: rest => (step s a).bind (fun t => run t rest)

/-- The receiver has decided to leave: it makes no further `recv` call, and it
either still has to store `false` into the flag or has stored it and returned. -/
def RecvLeaving (n : Nat) (t : Session) : Prop :=
  t.recvCalls = n ∧ (t.rpc = .stop ∨ (t.rpc = .done ∧ t.clientRunning = false))

/-- The sender is leaving after a failed `send`: it reads no further input and
sends nothing more, and it either still has to store `false` into the flag or
has stored it and returned. -/
def SendFailing (reads : Nat) (sent : List Msg) (t : Session) : Prop :=
  t.inputReads = reads ∧ t.sent = sent ∧
  (t.spc = .fail ∨ (t.spc = .done ∧ t.clientRunning = false))

/-- The sender has made its last `send`: it reads no further input and sends
nothing more; it still has to store `false` after a failed send, or to test the
flag it knows to be false, or it has returned. -/
def SendFinal (reads : Nat) (sent : List Msg) (t : Session) : Prop :=
  t.inputReads = reads ∧ t.sent = sent ∧
  (t.spc = .fail ∨ (t.spc = .check ∧ t.clientRunning = false)
    ∨ (t.spc = .done ∧ t.clientRunning = false))

/-- The sender holds its last message `m` while the flag is false: either `m`
is still to be sent, or it has been sent and the sender is in `SendFinal`. -/
def SendLast (reads : Nat) (sent : List Msg) (m : Msg) (t : Session) : Prop :=
  (t.inputReads = reads ∧ t.sent = sent ∧ t.clientRunning = false ∧
    (t.spc = .token m ∨ t.spc = .send m))
  ∨ SendFinal reads (sent ++ [m]) t

/-! ## Multi-threaded server: the server object -/

/-- The members of `SimpleServer` that the accept loop, the sessions, the
shutdown and the destructor use, with a record of the transport calls. -/
structure Server where
  serverSocket : Int
  /-- The member `atomic<bool> running`. -/
  running : Bool
  /-- The member `vector<int> clientSockets`. -/
  clientSockets : List Int
  /-- The detached `handleClient` threads, in the order they were launched. -/
  sessions : List Session
  /-- Number of `accept` calls that have returned. -/
  acceptCalls : Nat
  /-- The arguments of the `close` calls made so far, oldest first. -/
  closeCalls : List Int
  deriving DecidableEq, Repr

/-- The server after the constructor, `bindSocket` and `startListening` succeeded. -/
def Server.listening (serverSocket : Int) : Server :=
  { serverSocket := serverSocket, running := true, clientSockets := [], sessions := [],
    acceptCalls := 0, closeCalls := [] }

/-- One pass through the body of `while (running)` in `acceptConnections`, in
which `accept` returns `clientSocket`. -/
def acceptIteration (sv : Server) (clientSocket : Int) : Server :=
  if clientSocket < 0 then
    { sv with acceptCalls := sv.acceptCalls + 1 }
  else
    { sv with acceptCalls := sv.acceptCalls + 1,
              clientSockets := sv.clientSockets ++ [clientSocket],
              sessions := sv.sessions ++ [Session.start clientSocket] }

/-- The loop of `acceptConnections` over the values returned by its successive
`accept` calls: the state when those are used up or `running` is found false. -/
def acceptConnections (sv : Server) : List Int → Server
  | [] => sv
  | clientSocket :: rest =>
    if sv.running then acceptConnections (acceptIteration sv clientSocket) rest else sv

/-- The end of `handleClient` for the `i`-th session: both joins have returned,
`close(clientSocket)` is executed.  `none` while a thread is still running or
when the call has already returned. -/
def handleClientEnd (sv : Server) (i : Nat) : Option Server :=
  match sv.sessions[i]? with
  | none => none
  | some ses =>
    if ses.rpc = .done ∧ ses.spc = .done ∧ ses.closed = false then
      some { sv with sessions := sv.sessions.set i { ses with closed := true },
                     closeCalls := sv.closeCalls ++ [ses.clientSocket] }
    else none

/-- The method `serverShutdown`. -/
def serverShutdown (sv : Server) : Server :=
  { sv with running := false, closeCalls := sv.closeCalls ++ [sv.serverSocket] }

/-- The destructor `~SimpleServer`. -/
def destructor (sv : Server) : Server :=
  { sv with closeCalls := sv.closeCalls ++ sv.clientSockets ++ [sv.serverSocket] }

/-- The steps of the server while `acceptConnections` runs. -/
inductive ServerAction where
  /-- The accept loop makes one pass, `accept` returning `clientSocket`. -/
  | accept (clientSocket : Int)
  /-- A thread of the `i`-th session takes the step `a`. -/
  | session (i : Nat) (a : Action)
  /-- The `i`-th `handleClient` call joins its threads, closes and returns. -/
  | sessionEnd (i : Nat)
  deriving DecidableEq, Repr

/-- One step of the server; `none` when the step is not enabled. -/
def Server.step (sv : Server) : ServerAction → Option Server
  | .accept clientSocket =>
    if sv.running then some (acceptIteration sv clientSocket) else none
  | .session i a =>
    match sv.sessions[i]? with
    | none => none
    | some ses =>
      if ses.closed then none
      else (MTServer.step ses a).map (fun ses1 => { sv with sessions := sv.sessions.set i ses1 })
  | .sessionEnd i => handleClientEnd sv i

/-- The steps taken one after the other. -/
def Server.run (sv : Server) : List ServerAction → Option Server
  | [] => some sv
  | a :: rest => (sv.step a).bind (fun sv1 => sv1.run rest)

/-- What the code keeps true of the registry: `clientSockets` lists the handle
of every session ever launched, in order, ended or not; and a session that has
ended has had its handle closed. -/
def RegistryOfAll (sv : Server) : Prop :=
  sv.sessions.map (fun ses => ses.clientSocket) = sv.clientSockets ∧
  ∀ ses ∈ sv.sessions, ses.closed = true → ses.clientSocket ∈ sv.closeCalls

/-- The registry invariant of the data model: every handle in `clientSockets`
is the handle of a session that has not closed it. -/
def RegistryLive (sv : Server) : Prop :=
  ∀ h ∈ sv.clientSockets, ∃ ses ∈ sv.sessions, ses.clientSocket = h ∧ ses.closed = false

end MTServer

/-! ## Multi-threaded client -/

namespace MTClient

/-- Where the thread running `receiveMessages` stands. -/
inductive RecvPc where
  /-- About to evaluate `while (running)`. -/
  | loop
  /-- Inside `read`, which has been called and has not returned. -/
  | read
  /-- About to execute `running = false; break;`. -/
  | stop
  /-- The method has returned. -/
  | done
  deriving DecidableEq, Repr

/-- Where the thread running `sendMessages` stands. -/
inductive SendPc where
  /-- About to evaluate `while (running)`. -/
  | loop
  /-- Inside `getline(cin, message)`. -/
  | input
  /-- Holding `message`, about to execute `if (message == "quit()" || message == "exit()")`. -/
  | token (message : Msg)
  /-- About to call `send` with `message`. -/
  | send (message : Msg)
  /-- The send failed: about to execute `running = false; break;`. -/
  | fail
  /-- About to evaluate the final `if (!running) break;`. -/
  | check
  /-- The method has returned. -/
  | done
  deriving DecidableEq, Repr

/-- The object `SimpleClient`, the two threads of `communicate`, and a record
of the calls made. -/
structure Client where
  /-- The member `clientSocket`. -/
  clientSocket : Int
  /-- The member `atomic<bool> running`. -/
  running : Bool
  rpc : RecvPc
  spc : SendPc
  /-- Number of `read` calls made so far. -/
  readCalls : Nat
  /-- Number of `getline` calls made so far. -/
  inputReads : Nat
  /-- The messages handed to `send`, oldest first. -/
  sent : List Msg
  /-- The arguments of the `close` calls made so far, oldest first. -/
  closeCalls : List Int
  deriving DecidableEq, Repr

/-- The constructor: `running(true), clientSocket(-1)`. -/
def Client.new : Client :=
  { clientSocket := -1, running := true, rpc := .loop, spc := .loop,
    readCalls := 0, inputReads := 0, sent := [], closeCalls := [] }

/-- The method `connectToServer`, `socket` returning `sock` and `connect`
returning `conn`; the flag is the value returned. -/
def connectToServer (c : Client) (sock conn : Int) : Client × Bool :=
  let c := { c with clientSocket := sock }
  if sock < 0 then (c, false)
  else if conn < 0 then ({ c with closeCalls := c.closeCalls ++ [c.clientSocket] }, false)
  else (c, true)

/-- The steps of the two threads of `communicate`. -/
inductive Action where
  /-- Receiver: evaluate `while (running)`; when true, clear the buffer and call `read`. -/
  | recvTest
  /-- Receiver: `read` returns; run the body up to the next access of the flag. -/
  | recvReturn (r : RecvResult)
  /-- Receiver: `running = false; break;`. -/
  | recvStop
  /-- Sender: evaluate `while (running)`; when true, prompt and call `getline`. -/
  | sendTest
  /-- Sender: `getline` returns with `message`. -/
  | sendInput (message : Msg)
  /-- Sender: `if (message == "quit()" || message == "exit()") running = false;`. -/
  | sendToken
  /-- Sender: `send(clientSocket, message.c_str(), message.size(), 0)` returns `ret`. -/
  | sendCall (ret : Int)
  /-- Sender: `running = false; break;` after a failed send. -/
  | sendFail
  /-- Sender: `if (!running) break;`. -/
  | sendCheck
  deriving DecidableEq, Repr

/-- The body of `receiveMessages` after `read` returned, up to the next access
of the flag.  `none`: the write `buffer[bytesRead]` falls outside the buffer. -/
def receiveMessages (c : Client) (r : RecvResult) : Option Client :=
  r.buffer.bind (fun buffer =>
    if r.bytesRead > 0 then
      (bufferSet buffer r.bytesRead.toNat 0).map (fun _ => { c with rpc := .loop })
    else if r.bytesRead = 0 then
      some { c with rpc := .stop }
    else
      some { c with rpc := .stop })

/-- One step of the client's threads; `none` when the thread is not at that statement. -/
def step (c : Client) : Action → Option Client
  | .recvTest =>
    if c.rpc = .loop then
      if c.running then some { c with rpc := .read, readCalls := c.readCalls + 1 }
      else some { c with rpc := .done }
    else none
  | .recvReturn r =>
    if c.rpc = .read then receiveMessages c r else none
  | .recvStop =>
    if c.rpc = .stop then some { c with running := false, rpc := .done } else none
  | .sendTest =>
    if c.spc = .loop then
      if c.running then some { c with spc := .input, inputReads := c.inputReads + 1 }
      else some { c with spc := .done }
    else none
  | .sendInput message =>
    if c.spc = .input then some { c with spc := .token message } else none
  | .sendToken =>
    match c.spc with
    | .token message =>
      if message = quitToken ∨ message = exitToken then
        some { c with running := false, spc := .send message }
      else some { c with spc := .send message }
    | _ => none
  | .sendCall ret =>
    match c.spc with
    | .send message =>
      if ret < 0 then some { c with sent := c.sent ++ [message], spc := .fail }
      else some { c with sent := c.sent ++ [message], spc := .check }
    | _ => none
  | .sendFail =>
    if c.spc = .fail then some { c with running := false, spc := .done } else none
  | .sendCheck =>
    if c.spc = .check then
      if !c.running then some { c with spc := .done } else some { c with spc := .loop }
    else none

/-- An interleaving: the steps taken one after the other. -/
def run (c : Client) : List Action → Option Client
  | [] => some c
  | a :: rest => (step c a).bind (fun t => run t rest)

/-- The method `communicate` under the interleaving `acts`: both threads are
started and joined.  `none` when `acts` does not bring both threads to their end. -/
def communicate (c : Client) (acts : List Action) : Option Client :=
  (run c acts).bind (fun t => if t.rpc = .done ∧ t.spc = .done then some t else none)

/-- The method `closeConnection`. -/
def closeConnection (c : Client) : Client :=
  if c.clientSocket ≥ 0 then
    { c with closeCalls := c.closeCalls ++ [c.clientSocket], clientSocket := -1 }
  else c

/-- The destructor `~SimpleClient`. -/
def destructor (c : Client) : Client :=
  { c with closeCalls := c.closeCalls ++ [c.clientSocket] }

/-- The function `main`, with the destruction of `client` at its end. -/
def main (sock conn : Int) (acts : List Action) : Option Client :=
  let (client, connected) := connectToServer Client.new sock conn
  if connected then
    (communicate client acts).map (fun client => destructor (closeConnection client))
  else
    some (destructor client)

/-- The receiver has decided to leave: it makes no further `read` call, and it
either still has to store `false` into the flag or has stored it and returned. -/
def RecvLeaving (n : Nat) (t : Client) : Prop :=
  t.readCalls = n ∧ (t.rpc = .stop ∨ (t.rpc = .done ∧ t.running = false))

/-- The sender is leaving after a failed `send`: it reads no further input and
sends nothing more, and it either still has to store `false` into the flag or
has stored it and returned. -/
def SendFailing (reads : Nat) (sent : List Msg) (t : Client) : Prop :=
  t.inputReads = reads ∧ t.sent = sent ∧
  (t.spc = .fail ∨ (t.spc = .done ∧ t.running = false))

/-- The sender has made its last `send`: it reads no further input and sends
nothing more; it still has to store `false` after a failed send, or to test the
flag it knows to be false, or it has returned. -/
def SendFinal (reads : Nat) (sent : List Msg) (t : Client) : Prop :=
  t.inputReads = reads ∧ t.sent = sent ∧
  (t.spc = .fail ∨ (t.spc = .check ∧ t.running = false)
    ∨ (t.spc = .done ∧ t.running = false))

/-- The sender holds its last message `m` while the flag is false: either `m`
is still to be sent, or it has been sent and the sender is in `SendFinal`. -/
def SendLast (reads : Nat) (sent : List Msg) (m : Msg) (t : Client) : Prop :=
  (t.inputReads = reads ∧ t.sent = sent ∧ t.running = false ∧
    (t.spc = .token m ∨ t.spc = .send m))
  ∨ SendFinal reads (sent ++ [m]) t

end MTClient

/-! ## Single-threaded client -/

namespace STClient

/-- The object `simpleClient` with a record of the calls made. -/
structure Client where
  /-- The member `clientSocket`. -/
  clientSocket : Int
  /-- Number of `getline` calls made so far. -/
  inputReads : Nat
  /-- The messages handed to `send`, oldest first. -/
  sent : List Msg
  /-- Number of `recv` calls made so far. -/
  recvCalls : Nat
  /-- The arguments of the `close` calls made so far, oldest first. -/
  closeCalls : List Int
  deriving DecidableEq, Repr

/-- The constructor: `clientSocket = -1`. -/
def Client.new : Client :=
  { clientSocket := -1, inputReads := 0, sent := [], recvCalls := 0, closeCalls := [] }

/-- The method `connectToServer`, `socket` returning `sock` and `connect`
returning `conn`; the flag is the value returned. -/
def connectToServer (c : Client) (sock conn : Int) : Client × Bool :=
  let c := { c with clientSocket := sock }
  if sock < 0 then (c, false)
  else if conn < 0 then ({ c with closeCalls := c.closeCalls ++ [c.clientSocket] }, false)
  else (c, true)

/-- The loop of `communicate` over the lines `getline` returns and the results
of the `recv` calls.  `none`: the loop waits for a line or a receive that the
lists do not hold, or `buffer[bytesRead]` falls outside the buffer. -/
def communicate (c : Client) : List Msg → List RecvResult → Option Client
  | [], _ => none
  | message :: lines, results =>
    if message.isEmpty then
      communicate { c with inputReads := c.inputReads + 1 } lines results
    else if message = quitToken then
      some { c with inputReads := c.inputReads + 1, sent := c.sent ++ [message] }
    else
      match results with
      | [] => none
      | r :: results =>
        match r.buffer with
        | none => none
        | some buffer =>
          if r.bytesRead > 0 then
            match bufferSet buffer r.bytesRead.toNat 0 with
            | none => none
            | some _ =>
              communicate { c with inputReads := c.inputReads + 1, sent := c.sent ++ [message],
                                   recvCalls := c.recvCalls + 1 } lines results
          else if r.bytesRead = 0 then
            some { c with inputReads := c.inputReads + 1, sent := c.sent ++ [message],
                          recvCalls := c.recvCalls + 1 }
          else
            some { c with inputReads := c.inputReads + 1, sent := c.sent ++ [message],
                          recvCalls := c.recvCalls + 1 }

/-- The method `closeConnection`. -/
def closeConnection (c : Client) : Client :=
  if c.clientSocket ≥ 0 then
    { c with closeCalls := c.closeCalls ++ [c.clientSocket], clientSocket := -1 }
  else c

/-- The destructor `~simpleClient() { closeConnection(); }`. -/
def destructor (c : Client) : Client := closeConnection c

/-- The function `main`, with the destruction of `client` at its end. -/
def main (sock conn : Int) (lines : List Msg) (results : List RecvResult) : Option Client :=
  let (client, connected) := connectToServer Client.new sock conn
  if connected then
    (communicate client lines results).map (fun client => destructor (closeConnection client))
  else
    some (destructor client)

end STClient

/-! ## Single-threaded server -/

namespace STServer

/-- The members of the single-threaded `SimpleServer` with a record of the calls made. -/
structure Server where
  /-- The member `serverSocket`. -/
  serverSocket : Int
  /-- The member `bool running`. -/
  running : Bool
  /-- Number of `recv` calls made so far. -/
  recvCalls : Nat
  /-- Number of `getline` calls made so far. -/
  inputReads : Nat
  /-- The messages handed to `send`, oldest first. -/
  sent : List Msg
  /-- The arguments of the `close` calls made so far, oldest first. -/
  closeCalls : List Int
  /-- The argument of `exit`, once it has been called. -/
  exitCode : Option Nat
  deriving DecidableEq, Repr

/-- The server after the constructor, `bindSocket` and `startListening` succeeded. -/
def Server.listening (serverSocket : Int) : Server :=
  { serverSocket := serverSocket, running := true, recvCalls := 0, inputReads := 0,
    sent := [], closeCalls := [], exitCode := none }

/-- The method `closeSocket`. -/
def closeSocket (sv : Server) : Server :=
  if sv.serverSocket ≥ 0 then
    { sv with closeCalls := sv.closeCalls ++ [sv.serverSocket], serverSocket := -1 }
  else sv

/-- The communication loop of `acceptConnection` over the results of the `recv`
calls and the lines `getline` returns.  `none`: the loop waits for a receive or
a line that the lists do not hold, or `buffer[byteRead]` falls outside the buffer. -/
def communicationLoop (sv : Server) : List RecvResult → List Msg → Option Server
  | [], _ => if sv.running then none else some sv
  | r :: results, lines =>
    if sv.running then
      match r.buffer with
      | none => none
      | some buffer =>
        if r.bytesRead > 0 then
          match bufferSet buffer r.bytesRead.toNat 0 with
          | none => none
          | some buffer =>
            if strcmpEq buffer quitToken then
              some { sv with recvCalls := sv.recvCalls + 1 }
            else
              match lines with
              | [] => none
              | message :: lines =>
                communicationLoop
                  { sv with recvCalls := sv.recvCalls + 1, inputReads := sv.inputReads + 1,
                            sent := sv.sent ++ [message] } results lines
        else if r.bytesRead = 0 then
          some { sv with recvCalls := sv.recvCalls + 1 }
        else
          some { sv with recvCalls := sv.recvCalls + 1 }
    else some sv

/-- The method `acceptConnection`, `accept` returning `acceptedClientSocket`.
On a failed accept the server socket is closed and `exit(1)` is called. -/
def acceptConnection (sv : Server) (acceptedClientSocket : Int)
    (results : List RecvResult) (lines : List Msg) : Option Server :=
  if acceptedClientSocket < 0 then
    some { closeSocket sv with exitCode := some 1 }
  else
    (communicationLoop sv results lines).map (fun sv =>
      if acceptedClientSocket ≥ 0 then
        { sv with closeCalls := sv.closeCalls ++ [acceptedClientSocket] }
      else sv)

end STServer

end WebSocket

/-! # Theorems -/

namespace WebSocket

/-! ## The receive buffer as a C string -/

/-- The two tokens are the bytes of the string literals of the source. -/
theorem tokens_are_literals :
    literal "quit()" = quitToken ∧ literal "exit()" = exitToken := by
  decide

theorem recvInto_memsetZero (payload : Msg) (h : payload.length ≤ MAXRECV) :
    recvInto memsetZero payload
      = some (payload ++ List.replicate (BUFSIZE - payload.length) 0) := by
  simp [recvInto, h, memsetZero]

theorem bufferSet_after_payload (payload : Msg) (n : Nat) (b : Byte) :
    bufferSet (payload ++ List.replicate (n + 1) 0) payload.length b
      = some (payload ++ b :: List.replicate n 0) := by
  simp [bufferSet, List.replicate_succ]

theorem cstr_append_nul (payload rest : Msg) :
    cstr (payload ++ 0 :: rest) = payload.takeWhile (fun b => b != 0) := by
  induction payload with
  | nil => simp [cstr]
  | cons b p ih =>
    simp only [cstr] at ih
    by_cases hb : b = 0
    · simp [cstr, hb]
    · simp [cstr, hb, List.takeWhile_cons, ih]

/-- The string the receiver compares after a receive of `payload`: the buffer is
`payload`, a NUL, and the zeros `memset` left; as a C string it is the part of
`payload` before its first NUL byte. -/
theorem strcmpEq_filled (payload lit : Msg) (h : payload.length ≤ MAXRECV) :
    (recvInto memsetZero payload).bind (fun buffer => bufferSet buffer payload.length 0)
      = some (payload ++ 0 :: List.replicate (MAXRECV - payload.length) 0)
    ∧ strcmpEq (payload ++ 0 :: List.replicate (MAXRECV - payload.length) 0) lit
      = (payload.takeWhile (fun b => b != 0) == lit) := by
  constructor
  · rw [recvInto_memsetZero payload h]
    have e : BUFSIZE - payload.length = (MAXRECV - payload.length) + 1 := by
      simp only [MAXRECV, BUFSIZE] at h ⊢
      omega
    rw [e]
    exact bufferSet_after_payload payload _ 0
  · simp only [strcmpEq, cstr_append_nul]

namespace MTServer

/-! ## Invariants of a session's interleavings -/

theorem run_nil (s : Session) : run s [] = some s := rfl

theorem run_cons (s : Session) (a : Action) (rest : List Action) :
    run s (a :: rest) = (step s a).bind (fun t => run t rest) := rfl

/-- A property kept by every step is kept by every interleaving. -/
theorem run_invariant (P : Session → Prop)
    (hP : ∀ s a t, P s → step s a = some t → P t) :
    ∀ (acts : List Action) (s t : Session), P s → run s acts = some t → P t := by
  intro acts
  induction acts with
  | nil =>
    intro s t hs h
    simp only [run_nil, Option.some.injEq] at h
    exact h ▸ hs
  | cons a rest ih =>
    intro s t hs h
    rw [run_cons] at h
    cases hstep : step s a with
    | none => simp [hstep] at h
    | some u =>
      simp only [hstep, Option.some_bind] at h
      exact ih u t (hP s a u hs hstep) h

/-- What the body of `receiveMessages` does with a receive of `0 < n ≤ 1023` bytes. -/
theorem receiveMessages_bytes (s : Session) (payload : Msg)
    (hpos : 0 < payload.length) (hmax : payload.length ≤ MAXRECV) :
    receiveMessages s (.bytes payload)
      = some (if payload.takeWhile (fun b => b != 0) == quitToken
                  || payload.takeWhile (fun b => b != 0) == exitToken
              then { s with rpc := .stop } else { s with rpc := .loop }) := by
  have hfill := (strcmpEq_filled payload quitToken hmax).1
  have hq := (strcmpEq_filled payload quitToken hmax).2
  have he := (strcmpEq_filled payload exitToken hmax).2
  have hlen : (0 : Int) < (payload.length : Int) := by exact_mod_cast hpos
  cases hb : recvInto memsetZero payload with
  | none => simp [hb] at hfill
  | some buffer =>
    simp only [hb, Option.some_bind] at hfill
    simp only [receiveMessages, RecvResult.buffer, RecvResult.bytesRead, hb, Option.some_bind,
      gt_iff_lt, hlen, if_true, Int.toNat_ofNat, hfill, Option.map_some', hq, he]

theorem recvLeaving_step (n : Nat) (s : Session) (a : Action) (t : Session)
    (hs : RecvLeaving n s) (h : step s a = some t) : RecvLeaving n t := by
  obtain ⟨hn, hpc⟩ := hs
  unfold RecvLeaving
  rcases hpc with hpc | ⟨hpc, hf⟩ <;> cases a <;>
    simp only [step, hpc, reduceCtorEq, if_false, if_true] at h
  all_goals try split at h
  all_goals try split at h
  all_goals first
    | (cases h; simp_all)
    | cases h

/-- The body run when `recv` returns only moves the receiver. -/
theorem receiveMessages_frame (s : Session) (r : RecvResult) (t : Session)
    (h : receiveMessages s r = some t) :
    t = { s with rpc := t.rpc } ∧ (t.rpc = .stop ∨ t.rpc = .loop) := by
  unfold receiveMessages at h
  cases hb : r.buffer with
  | none => simp [hb] at h
  | some buffer =>
    simp only [hb, Option.some_bind] at h
    split at h
    · cases hs : bufferSet buffer r.bytesRead.toNat 0 with
      | none => simp [hs] at h
      | some b2 =>
        simp only [hs, Option.map_some', Option.some.injEq] at h
        split at h <;> subst h <;> simp
    · split at h <;> cases h <;> simp

theorem sendFailing_step (reads : Nat) (sent : List Msg) (s : Session) (a : Action) (t : Session)
    (hs : SendFailing reads sent s) (h : step s a = some t) : SendFailing reads sent t := by
  obtain ⟨hn, hsent, hpc⟩ := hs
  unfold SendFailing
  cases a
  case recvReturn r =>
    simp only [step] at h
    split at h
    · obtain ⟨ht, -⟩ := receiveMessages_frame s r t h
      rw [ht]
      exact ⟨hn, hsent, hpc⟩
    · cases h
  all_goals
    rcases hpc with hpc | ⟨hpc, hf⟩ <;>
      simp only [step, hpc, reduceCtorEq, if_false, if_true] at h
  all_goals try split at h
  all_goals try split at h
  all_goals first
    | (cases h; simp_all)
    | cases h

/-- What the body does with a receive that returned zero or a negative number. -/
theorem receiveMessages_nonpos (s : Session) (r : RecvResult) (hr : r.bytesRead ≤ 0) :
    receiveMessages s r = some { s with rpc := .stop } := by
  have hnot : ¬ r.bytesRead > 0 := not_lt.mpr hr
  cases r with
  | bytes payload =>
    have hlen : payload.length = 0 := by
      simp only [RecvResult.bytesRead] at hr
      omega
    have hnil : payload = [] := List.length_eq_zero.mp hlen
    subst hnil
    simp [receiveMessages, RecvResult.buffer, RecvResult.bytesRead, recvInto]
  | error k =>
    simp only [receiveMessages, RecvResult.buffer, Option.some_bind, hnot, if_false]
    split <;> rfl

theorem sendFinal_step (reads : Nat) (sent : List Msg) (s : Session) (a : Action) (t : Session)
    (hs : SendFinal reads sent s) (h : step s a = some t) : SendFinal reads sent t := by
  obtain ⟨hn, hsent, hpc⟩ := hs
  unfold SendFinal
  cases a
  case recvReturn r =>
    simp only [step] at h
    split at h
    · obtain ⟨ht, -⟩ := receiveMessages_frame s r t h
      rw [ht]
      exact ⟨hn, hsent, hpc⟩
    · cases h
  all_goals
    rcases hpc with hpc | ⟨hpc, hf⟩ | ⟨hpc, hf⟩ <;>
      simp only [step, hpc, reduceCtorEq, if_false, if_true] at h
  all_goals try split at h
  all_goals try split at h
  all_goals first
    | (cases h; simp_all)
    | cases h

theorem sendLast_step (reads : Nat) (sent : List Msg) (m : Msg) (s : Session) (a : Action)
    (t : Session) (hs : SendLast reads sent m s) (h : step s a = some t) :
    SendLast reads sent m t := by
  rcases hs with ⟨hn, hsent, hf, hpc⟩ | hfin
  · unfold SendLast SendFinal
    cases a
    case recvReturn r =>
      simp only [step] at h
      split at h
      · obtain ⟨ht, -⟩ := receiveMessages_frame s r t h
        rw [ht]
        exact Or.inl ⟨hn, hsent, hf, hpc⟩
      · cases h
    all_goals
      rcases hpc with hpc | hpc <;>
        simp only [step, hpc, reduceCtorEq, if_false, if_true] at h
    all_goals try split at h
    all_goals try split at h
    all_goals first
      | (cases h; simp_all)
      | cases h
  · exact Or.inr (sendFinal_step reads (sent ++ [m]) s a t hfin h)

/-- C2. Server receiver, a receive of N>0 bytes whose payload is exactly
`"quit()"` or `"exit()"`: the body goes to `clientRunning = false; break;`
without a further `recv`; that store is enabled, sets the flag to false and
ends the lambda; and in every interleaving with the sender from there on the
number of `recv` calls stays what it was, the receiver being either about to
store or returned with the flag false. -/
theorem C2_receiver_terminator (s : Session) (r : RecvResult)
    (hpc : s.rpc = .recv)
    (hr : r = .bytes quitToken ∨ r = .bytes exitToken) :
    0 < r.bytesRead ∧
    step s (.recvReturn r) = some { s with rpc := .stop } ∧
    step { s with rpc := .stop } .recvStop
      = some { s with clientRunning := false, rpc := .done } ∧
    ∀ (acts : List Action) (t : Session), run { s with rpc := .stop } acts = some t →
      t.recvCalls = s.recvCalls ∧
      (t.rpc = .stop ∨ (t.rpc = .done ∧ t.clientRunning = false)) := by
  have hstep : step s (.recvReturn r) = some { s with rpc := .stop } := by
    simp only [step, hpc, if_true]
    rcases hr with hr | hr <;> subst hr
    · rw [receiveMessages_bytes s quitToken (by decide) (by decide)]
      rfl
    · rw [receiveMessages_bytes s exitToken (by decide) (by decide)]
      rfl
  refine ⟨?_, hstep, ?_, ?_⟩
  · rcases hr with hr | hr <;> subst hr <;> decide
  · simp [step]
  · intro acts t ht
    exact run_invariant (RecvLeaving s.recvCalls) (recvLeaving_step s.recvCalls) acts
      { s with rpc := .stop } t ⟨rfl, Or.inl rfl⟩ ht

/-- Witness of C2: the session of handle 4 inside its first `recv`, which
returns the six bytes of `"quit()"`. -/
theorem C2_receiver_terminator_witness :
    ({ Session.start 4 with rpc := .recv, recvCalls := 1 } : Session).rpc = .recv ∧
    step { Session.start 4 with rpc := .recv, recvCalls := 1 }
        (.recvReturn (.bytes quitToken))
      = some { Session.start 4 with rpc := .stop, recvCalls := 1 } ∧
    step { Session.start 4 with rpc := .stop, recvCalls := 1 } .recvStop
      = some { Session.start 4 with clientRunning := false, rpc := .done, recvCalls := 1 } :=
  ⟨rfl,
   (C2_receiver_terminator { Session.start 4 with rpc := .recv, recvCalls := 1 }
      (.bytes quitToken) rfl (Or.inl rfl)).2.1,
   (C2_receiver_terminator { Session.start 4 with rpc := .recv, recvCalls := 1 }
      (.bytes quitToken) rfl (Or.inl rfl)).2.2.1⟩

/-! ## What the server keeps in its registry -/

/-- A step of a session's threads leaves its handle and its `closed` mark alone. -/
theorem step_frame (s : Session) (a : Action) (t : Session) (h : step s a = some t) :
    t.clientSocket = s.clientSocket ∧ t.closed = s.closed := by
  cases a
  case recvReturn r =>
    simp only [step] at h
    split at h
    · obtain ⟨ht, -⟩ := receiveMessages_frame s r t h
      rw [ht]
      exact ⟨rfl, rfl⟩
    · cases h
  all_goals simp only [step] at h
  all_goals try split at h
  all_goals try split at h
  all_goals first
    | (cases h; simp_all)
    | cases h

/-- Replacing a session by one with the same handle keeps the list of handles. -/
theorem map_clientSocket_set (l : List Session) (i : Nat) (ses t : Session)
    (hget : l[i]? = some ses) (ht : t.clientSocket = ses.clientSocket) :
    (l.set i t).map (fun x => x.clientSocket) = l.map (fun x => x.clientSocket) := by
  induction l generalizing i with
  | nil => simp
  | cons x rest ih =>
    cases i with
    | zero =>
      simp only [List.getElem?_cons_zero, Option.some.injEq] at hget
      subst hget
      simp [ht]
    | succ j =>
      simp only [List.getElem?_cons_succ] at hget
      simp only [List.set_cons_succ, List.map_cons, List.cons.injEq, true_and]
      exact ih j hget

theorem registryOfAll_step (sv : Server) (a : ServerAction) (sv1 : Server)
    (hinv : RegistryOfAll sv) (h : sv.step a = some sv1) : RegistryOfAll sv1 := by
  obtain ⟨hmap, hclosed⟩ := hinv
  cases a with
  | accept clientSocket =>
    simp only [Server.step] at h
    split at h
    · simp only [Option.some.injEq] at h
      subst h
      unfold acceptIteration
      split
      · exact ⟨hmap, hclosed⟩
      · refine ⟨by simp [hmap, Session.start], ?_⟩
        intro ses hmem hc
        simp only [List.mem_append, List.mem_singleton] at hmem
        rcases hmem with hmem | rfl
        · exact hclosed ses hmem hc
        · simp [Session.start] at hc
    · cases h
  | session i act =>
    simp only [Server.step] at h
    cases hget : sv.sessions[i]? with
    | none => simp [hget] at h
    | some ses =>
      simp only [hget] at h
      split at h
      · cases h
      · cases hstep : MTServer.step ses act with
        | none => simp [hstep] at h
        | some ses1 =>
          simp only [hstep, Option.map_some', Option.some.injEq] at h
          subst h
          obtain ⟨hsock, hcl⟩ := step_frame ses act ses1 hstep
          refine ⟨?_, ?_⟩
          · show (sv.sessions.set i ses1).map (fun x => x.clientSocket) = sv.clientSockets
            rw [map_clientSocket_set sv.sessions i ses ses1 hget hsock, hmap]
          · intro x hmem hc
            show x.clientSocket ∈ sv.closeCalls
            rcases List.mem_or_eq_of_mem_set hmem with hx | rfl
            · exact hclosed x hx hc
            · rw [hsock]
              exact hclosed ses (List.getElem?_mem hget) (hcl ▸ hc)
  | sessionEnd i =>
    simp only [Server.step, handleClientEnd] at h
    cases hget : sv.sessions[i]? with
    | none => simp [hget] at h
    | some ses =>
      simp only [hget] at h
      split at h
      · simp only [Option.some.injEq] at h
        subst h
        refine ⟨?_, ?_⟩
        · show (sv.sessions.set i { ses with closed := true }).map (fun x => x.clientSocket)
              = sv.clientSockets
          rw [map_clientSocket_set sv.sessions i ses { ses with closed := true } hget rfl, hmap]
        · intro x hmem hc
          show x.clientSocket ∈ sv.closeCalls ++ [ses.clientSocket]
          rcases List.mem_or_eq_of_mem_set hmem with hx | rfl
          · exact List.mem_append_left _ (hclosed x hx hc)
          · simp
      · cases h

theorem registryOfAll_run :
    ∀ (acts : List ServerAction) (sv sv1 : Server),
      RegistryOfAll sv → sv.run acts = some sv1 → RegistryOfAll sv1 := by
  intro acts
  induction acts with
  | nil =>
    intro sv sv1 hinv h
    simp only [Server.run, Option.some.injEq] at h
    exact h ▸ hinv
  | cons a rest ih =>
    intro sv sv1 hinv h
    simp only [Server.run] at h
    cases hstep : sv.step a with
    | none => simp [hstep] at h
    | some sv2 =>
      simp only [hstep, Option.some_bind] at h
      exact ih sv2 sv1 (registryOfAll_step sv a sv2 hinv hstep) h

/-- In every state the server reaches from listening, `clientSockets` lists the
handle of every session ever launched, the ended ones included: its size is the
number of sessions launched, not the number of sessions still open. -/
theorem registryOfAll_reachable (serverSocket : Int) (acts : List ServerAction) (sv : Server)
    (h : (Server.listening serverSocket).run acts = some sv) :
    RegistryOfAll sv ∧ sv.clientSockets.length = sv.sessions.length := by
  have hinit : RegistryOfAll (Server.listening serverSocket) :=
    ⟨rfl, fun ses hmem _ => by simp [Server.listening] at hmem⟩
  have hinv := registryOfAll_run acts (Server.listening serverSocket) sv hinit h
  refine ⟨hinv, ?_⟩
  rw [← hinv.1, List.length_map]

/-- A session that has ended keeps its handle in `clientSockets`, and the
destructor closes that handle again: at least two close calls on it. -/
theorem ended_session_closed_again (sv : Server) (ses : Session)
    (hinv : RegistryOfAll sv) (hmem : ses ∈ sv.sessions) (hc : ses.closed = true) :
    ses.clientSocket ∈ sv.clientSockets
    ∧ 2 ≤ (destructor sv).closeCalls.count ses.clientSocket := by
  obtain ⟨hmap, hclosed⟩ := hinv
  have h1 : ses.clientSocket ∈ sv.clientSockets := by
    rw [← hmap]
    exact List.mem_map.mpr ⟨ses, hmem, rfl⟩
  have h2 : ses.clientSocket ∈ sv.closeCalls := hclosed ses hmem hc
  refine ⟨h1, ?_⟩
  have c1 : 0 < sv.clientSockets.count ses.clientSocket := List.count_pos_iff.mpr h1
  have c2 : 0 < sv.closeCalls.count ses.clientSocket := List.count_pos_iff.mpr h2
  simp only [destructor, List.count_append]
  omega

/-! ## The registry and the close calls of the server -/

/-- C1 (the code keeps closed handles registered). Two clients are accepted on
handles 4 and 5; the first client closes its side (a receive of 0 bytes), both
threads of its session end and `handleClient(4)` closes handle 4.  The registry
`clientSockets` is still `[4, 5]`, of size 2, and holds the closed handle 4:
the registry invariant does not hold in this reachable state. -/
theorem C1_registry_keeps_closed_handle :
    ∃ sv : Server,
      (Server.listening 3).run
          [.accept 4, .accept 5, .session 0 .recvTest, .session 0 (.recvReturn (.bytes [])),
           .session 0 .recvStop, .session 0 .sendTest, .sessionEnd 0] = some sv
      ∧ sv.clientSockets = [4, 5]
      ∧ sv.clientSockets.length = 2
      ∧ sv.closeCalls = [4]
      ∧ sv.sessions.map (fun ses => (ses.clientSocket, ses.closed)) = [(4, true), (5, false)]
      ∧ ¬ RegistryLive sv := by
  refine ⟨{ serverSocket := 3, running := true, clientSockets := [4, 5],
            sessions := [{ clientSocket := 4, clientRunning := false, rpc := .done,
                           spc := .done, recvCalls := 1, inputReads := 0, sent := [],
                           closed := true },
                         Session.start 5],
            acceptCalls := 2, closeCalls := [4] }, by decide, rfl, rfl, rfl, rfl, ?_⟩
  intro h
  obtain ⟨ses, hmem, hsock, hclosed⟩ := h 4 (by decide)
  simp only [List.mem_cons, List.mem_singleton, List.not_mem_nil, or_false] at hmem
  rcases hmem with rfl | rfl
  · simp at hclosed
  · simp [Session.start] at hsock

/-- A pass of the accept loop counts one `accept` call and leaves `running` alone. -/
theorem acceptIteration_counts (sv : Server) (clientSocket : Int) :
    (acceptIteration sv clientSocket).running = sv.running
    ∧ (acceptIteration sv clientSocket).acceptCalls = sv.acceptCalls + 1 := by
  unfold acceptIteration
  split <;> exact ⟨rfl, rfl⟩

/-- While `running` is true the accept loop makes a pass for every value its
`accept` calls return, failed or not. -/
theorem acceptConnections_counts :
    ∀ (results : List Int) (sv : Server), sv.running = true →
      (acceptConnections sv results).running = true
      ∧ (acceptConnections sv results).acceptCalls = sv.acceptCalls + results.length := by
  intro results
  induction results with
  | nil =>
    intro sv hrun
    exact ⟨hrun, rfl⟩
  | cons r rest ih =>
    intro sv hrun
    obtain ⟨h1, h2⟩ := acceptIteration_counts sv r
    rw [acceptConnections, if_pos hrun]
    obtain ⟨h3, h4⟩ := ih (acceptIteration sv r) (h1.trans hrun)
    refine ⟨h3, ?_⟩
    rw [h4, h2, List.length_cons]
    omega

/-- C7. Accept loop, `running` true, an `accept` call that fails (negative
result): the pass changes nothing but the count of accept calls (registry,
`running`, sessions and close calls are as before); the loop does not stop: it
makes a pass for every further value `accept` returns, with `running` still
true; a pass in which `accept` returns a handle `h ≥ 0` appends `h` to
`clientSockets` and launches a session for `h`, so that after the failed call
and that one the server is as it was but for two accept calls counted, `h`
registered and its session started. -/
theorem C7_accept_failure_continues (sv : Server) (r h : Int) (rest : List Int)
    (hrun : sv.running = true) (hr : r < 0) (hh : 0 ≤ h) :
    acceptIteration sv r = { sv with acceptCalls := sv.acceptCalls + 1 }
    ∧ acceptIteration sv h
        = { sv with acceptCalls := sv.acceptCalls + 1,
                    clientSockets := sv.clientSockets ++ [h],
                    sessions := sv.sessions ++ [Session.start h] }
    ∧ acceptConnections sv [r] = { sv with acceptCalls := sv.acceptCalls + 1 }
    ∧ acceptConnections sv [r, h]
        = { sv with acceptCalls := sv.acceptCalls + 2,
                    clientSockets := sv.clientSockets ++ [h],
                    sessions := sv.sessions ++ [Session.start h] }
    ∧ ((acceptConnections sv (r :: rest)).running = true
        ∧ (acceptConnections sv (r :: rest)).acceptCalls = sv.acceptCalls + 1 + rest.length)
    ∧ acceptConnections sv (r :: rest)
        = acceptConnections { sv with acceptCalls := sv.acceptCalls + 1 } rest
    ∧ acceptConnections sv (r :: h :: rest)
        = acceptConnections
            { sv with acceptCalls := sv.acceptCalls + 2,
                      clientSockets := sv.clientSockets ++ [h],
                      sessions := sv.sessions ++ [Session.start h] } rest := by
  have h1 : acceptIteration sv r = { sv with acceptCalls := sv.acceptCalls + 1 } := by
    simp [acceptIteration, hr]
  have h2 : ¬ h < 0 := not_lt.mpr hh
  have h3 : acceptIteration sv h
      = { sv with acceptCalls := sv.acceptCalls + 1,
                  clientSockets := sv.clientSockets ++ [h],
                  sessions := sv.sessions ++ [Session.start h] } := by
    simp [acceptIteration, h2]
  have h4 : ∀ tail : List Int, acceptConnections sv (r :: h :: tail)
      = acceptConnections
          { sv with acceptCalls := sv.acceptCalls + 2,
                    clientSockets := sv.clientSockets ++ [h],
                    sessions := sv.sessions ++ [Session.start h] } tail := by
    intro tail
    rw [acceptConnections, if_pos hrun, h1, acceptConnections, if_pos hrun]
    simp [acceptIteration, h2]
  refine ⟨h1, h3, ?_, ?_, ?_, ?_, h4 rest⟩
  · rw [acceptConnections, if_pos hrun, h1]
    rfl
  · rw [h4 []]
    rfl
  · obtain ⟨c1, c2⟩ := acceptConnections_counts (r :: rest) sv hrun
    refine ⟨c1, ?_⟩
    rw [c2, List.length_cons]
    omega
  · rw [acceptConnections, if_pos hrun, h1]

/-- Witness of C7: the listening server, a failed accept (-1), then handle 4. -/
theorem C7_accept_failure_continues_witness :
    (Server.listening 3).running = true ∧ (-1 : Int) < 0 ∧ (0 : Int) ≤ 4
    ∧ acceptConnections (Server.listening 3) [-1]
        = { Server.listening 3 with acceptCalls := 1 }
    ∧ acceptConnections (Server.listening 3) [-1, 4]
        = { Server.listening 3 with acceptCalls := 2, clientSockets := [4],
                                    sessions := [Session.start 4] } :=
  ⟨rfl, by decide, by decide,
   (C7_accept_failure_continues (Server.listening 3) (-1) 4 [] rfl (by decide) (by decide)).2.2.1,
   (C7_accept_failure_continues (Server.listening 3) (-1) 4 [] rfl (by decide)
      (by decide)).2.2.2.1⟩

/-- C8 (the code closes a finished session's handle twice). Handle 4 is
accepted, its session runs to completion and `handleClient(4)` closes it; the
destructor then closes every entry of `clientSockets`, where 4 still is: the
close calls are `4, 4, 3`, two of them on handle 4. -/
theorem C8_session_handle_closed_twice :
    ((Server.listening 3).run
        [.accept 4, .session 0 .recvTest, .session 0 (.recvReturn (.bytes [])),
         .session 0 .recvStop, .session 0 .sendTest, .sessionEnd 0]).map
      (fun sv => (sv.closeCalls, (destructor sv).closeCalls,
                  (destructor sv).closeCalls.count 4))
      = some ([4], [4, 4, 3], 2) := by
  decide

/-- C9 (the code closes the listening handle twice). `serverShutdown` sets
`running` to false and closes `serverSocket`; the destructor that follows it in
`main` closes `serverSocket` again, so the sequence makes at least two close
calls on the listening handle: exactly `3, 3` for a server listening on
handle 3 with no client. -/
theorem C9_listening_handle_closed_twice (sv : Server) :
    (serverShutdown sv).running = false
    ∧ (destructor (serverShutdown sv)).closeCalls
        = sv.closeCalls ++ [sv.serverSocket] ++ sv.clientSockets ++ [sv.serverSocket]
    ∧ (destructor (serverShutdown sv)).closeCalls.count sv.serverSocket
        = sv.closeCalls.count sv.serverSocket + sv.clientSockets.count sv.serverSocket + 2
    ∧ (destructor (serverShutdown (Server.listening 3))).closeCalls = [3, 3] := by
  refine ⟨rfl, rfl, ?_, rfl⟩
  simp only [destructor, serverShutdown, List.count_append, List.count_singleton, beq_self_eq_true,
    if_true]
  omega

end MTServer

namespace MTClient

/-! ## Invariants of the client's interleavings -/

theorem client_run_nil (c : Client) : run c [] = some c := rfl

theorem client_run_cons (c : Client) (a : Action) (rest : List Action) :
    run c (a :: rest) = (step c a).bind (fun t => run t rest) := rfl

/-- A property kept by every step is kept by every interleaving. -/
theorem client_run_invariant (P : Client → Prop)
    (hP : ∀ c a t, P c → step c a = some t → P t) :
    ∀ (acts : List Action) (c t : Client), P c → run c acts = some t → P t := by
  intro acts
  induction acts with
  | nil =>
    intro c t hc h
    simp only [client_run_nil, Option.some.injEq] at h
    exact h ▸ hc
  | cons a rest ih =>
    intro c t hc h
    rw [client_run_cons] at h
    cases hstep : step c a with
    | none => simp [hstep] at h
    | some u =>
      simp only [hstep, Option.some_bind] at h
      exact ih u t (hP c a u hc hstep) h

/-- The body run when `read` returns only moves the receiver. -/
theorem client_receiveMessages_frame (c : Client) (r : RecvResult) (t : Client)
    (h : receiveMessages c r = some t) :
    t = { c with rpc := t.rpc } ∧ (t.rpc = .stop ∨ t.rpc = .loop) := by
  unfold receiveMessages at h
  cases hb : r.buffer with
  | none => simp [hb] at h
  | some buffer =>
    simp only [hb, Option.some_bind] at h
    split at h
    · cases hs : bufferSet buffer r.bytesRead.toNat 0 with
      | none => simp [hs] at h
      | some b2 =>
        simp only [hs, Option.map_some', Option.some.injEq] at h
        subst h
        simp
    · split at h <;> cases h <;> simp

theorem client_recvLeaving_step (n : Nat) (c : Client) (a : Action) (t : Client)
    (hc : RecvLeaving n c) (h : step c a = some t) : RecvLeaving n t := by
  obtain ⟨hn, hpc⟩ := hc
  unfold RecvLeaving
  rcases hpc with hpc | ⟨hpc, hf⟩ <;> cases a <;>
    simp only [step, hpc, reduceCtorEq, if_false, if_true] at h
  all_goals try split at h
  all_goals try split at h
  all_goals first
    | (cases h; simp_all)
    | cases h

theorem client_sendFailing_step (reads : Nat) (sent : List Msg) (c : Client) (a : Action) (t : Client)
    (hs : SendFailing reads sent c) (h : step c a = some t) : SendFailing reads sent t := by
  obtain ⟨hn, hsent, hpc⟩ := hs
  unfold SendFailing
  cases a
  case recvReturn r =>
    simp only [step] at h
    split at h
    · obtain ⟨ht, -⟩ := client_receiveMessages_frame c r t h
      rw [ht]
      exact ⟨hn, hsent, hpc⟩
    · cases h
  all_goals
    rcases hpc with hpc | ⟨hpc, hf⟩ <;>
      simp only [step, hpc, reduceCtorEq, if_false, if_true] at h
  all_goals try split at h
  all_goals try split at h
  all_goals first
    | (cases h; simp_all)
    | cases h

/-- What the body does with a receive that returned zero or a negative number. -/
theorem client_receiveMessages_nonpos (c : Client) (r : RecvResult) (hr : r.bytesRead ≤ 0) :
    receiveMessages c r = some { c with rpc := .stop } := by
  have hnot : ¬ r.bytesRead > 0 := not_lt.mpr hr
  cases r with
  | bytes payload =>
    have hlen : payload.length = 0 := by
      simp only [RecvResult.bytesRead] at hr
      omega
    have hnil : payload = [] := List.length_eq_zero.mp hlen
    subst hnil
    simp [receiveMessages, RecvResult.buffer, RecvResult.bytesRead, recvInto]
  | error k =>
    simp only [receiveMessages, RecvResult.buffer, Option.some_bind, hnot, if_false]
    split <;> rfl

theorem client_sendFinal_step (reads : Nat) (sent : List Msg) (c : Client) (a : Action) (t : Client)
    (hc : SendFinal reads sent c) (h : step c a = some t) : SendFinal reads sent t := by
  obtain ⟨hn, hsent, hpc⟩ := hc
  unfold SendFinal
  cases a
  case recvReturn r =>
    simp only [step] at h
    split at h
    · obtain ⟨ht, -⟩ := client_receiveMessages_frame c r t h
      rw [ht]
      exact ⟨hn, hsent, hpc⟩
    · cases h
  all_goals
    rcases hpc with hpc | ⟨hpc, hf⟩ | ⟨hpc, hf⟩ <;>
      simp only [step, hpc, reduceCtorEq, if_false, if_true] at h
  all_goals try split at h
  all_goals try split at h
  all_goals first
    | (cases h; simp_all)
    | cases h

theorem client_sendLast_step (reads : Nat) (sent : List Msg) (m : Msg) (c : Client) (a : Action)
    (t : Client) (hc : SendLast reads sent m c) (h : step c a = some t) :
    SendLast reads sent m t := by
  rcases hc with ⟨hn, hsent, hf, hpc⟩ | hfin
  · unfold SendLast SendFinal
    cases a
    case recvReturn r =>
      simp only [step] at h
      split at h
      · obtain ⟨ht, -⟩ := client_receiveMessages_frame c r t h
        rw [ht]
        exact Or.inl ⟨hn, hsent, hf, hpc⟩
      · cases h
    all_goals
      rcases hpc with hpc | hpc <;>
        simp only [step, hpc, reduceCtorEq, if_false, if_true] at h
    all_goals try split at h
    all_goals try split at h
    all_goals first
      | (cases h; simp_all)
      | cases h
  · exact Or.inr (client_sendFinal_step reads (sent ++ [m]) c a t hfin h)

end MTClient

/-! ## Receivers and senders of the multi-threaded programs -/

/-- C3, amended. Receiver of the multi-threaded server and of the multi-threaded
client, a receive that returns 0 (peer EOF) or a negative number (transport
error): the body goes to the store of `false` without a further receive call;
that store is enabled, sets the flag to false and ends the unit; in every
interleaving from there on the number of receive calls stays what it was, the
unit being either about to store or returned with the flag false.  In the
server, whose receiver alone has a terminator path, the state reached is the
one a received `"quit()"` leads to. -/
theorem C3_receiver_eof_or_error (s : MTServer.Session) (c : MTClient.Client) (r : RecvResult)
    (hs : s.rpc = .recv) (hc : c.rpc = .read) (hr : r.bytesRead ≤ 0) :
    (MTServer.step s (.recvReturn r) = some { s with rpc := .stop }
      ∧ MTServer.step { s with rpc := .stop } .recvStop
          = some { s with clientRunning := false, rpc := .done }
      ∧ (∀ (acts : List MTServer.Action) (t : MTServer.Session),
          MTServer.run { s with rpc := .stop } acts = some t →
            t.recvCalls = s.recvCalls ∧
            (t.rpc = .stop ∨ (t.rpc = .done ∧ t.clientRunning = false)))
      ∧ MTServer.step s (.recvReturn r) = MTServer.step s (.recvReturn (.bytes quitToken)))
    ∧ (MTClient.step c (.recvReturn r) = some { c with rpc := .stop }
      ∧ MTClient.step { c with rpc := .stop } .recvStop
          = some { c with running := false, rpc := .done }
      ∧ (∀ (acts : List MTClient.Action) (t : MTClient.Client),
          MTClient.run { c with rpc := .stop } acts = some t →
            t.readCalls = c.readCalls ∧
            (t.rpc = .stop ∨ (t.rpc = .done ∧ t.running = false)))) := by
  have hsrv : MTServer.step s (.recvReturn r) = some { s with rpc := .stop } := by
    simp only [MTServer.step, hs, if_true]
    exact MTServer.receiveMessages_nonpos s r hr
  have hquit : MTServer.step s (.recvReturn (.bytes quitToken)) = some { s with rpc := .stop } := by
    simp only [MTServer.step, hs, if_true]
    rw [MTServer.receiveMessages_bytes s quitToken (by decide) (by decide)]
    rfl
  have hcli : MTClient.step c (.recvReturn r) = some { c with rpc := .stop } := by
    simp only [MTClient.step, hc, if_true]
    exact MTClient.client_receiveMessages_nonpos c r hr
  refine ⟨⟨hsrv, ?_, ?_, ?_⟩, hcli, ?_, ?_⟩
  · simp [MTServer.step]
  · intro acts t ht
    exact MTServer.run_invariant (MTServer.RecvLeaving s.recvCalls)
      (MTServer.recvLeaving_step s.recvCalls) acts { s with rpc := .stop } t
      ⟨rfl, Or.inl rfl⟩ ht
  · rw [hsrv, hquit]
  · simp [MTClient.step]
  · intro acts t ht
    exact MTClient.client_run_invariant (MTClient.RecvLeaving c.readCalls)
      (MTClient.client_recvLeaving_step c.readCalls) acts { c with rpc := .stop } t
      ⟨rfl, Or.inl rfl⟩ ht

/-- Witness of C3: server session of handle 4 and client on handle 3, each
inside its first receive, which fails with -1. -/
theorem C3_receiver_eof_or_error_witness :
    (RecvResult.error 0).bytesRead ≤ 0
    ∧ MTServer.step { MTServer.Session.start 4 with rpc := .recv, recvCalls := 1 }
          (.recvReturn (.error 0))
        = some { MTServer.Session.start 4 with rpc := .stop, recvCalls := 1 }
    ∧ MTClient.step { MTClient.Client.new with clientSocket := 3, rpc := .read, readCalls := 1 }
          (.recvReturn (.error 0))
        = some { MTClient.Client.new with clientSocket := 3, rpc := .stop, readCalls := 1 } :=
  ⟨by decide,
   (C3_receiver_eof_or_error
      { MTServer.Session.start 4 with rpc := .recv, recvCalls := 1 }
      { MTClient.Client.new with clientSocket := 3, rpc := .read, readCalls := 1 }
      (.error 0) rfl rfl (by decide)).1.1,
   (C3_receiver_eof_or_error
      { MTServer.Session.start 4 with rpc := .recv, recvCalls := 1 }
      { MTClient.Client.new with clientSocket := 3, rpc := .read, readCalls := 1 }
      (.error 0) rfl rfl (by decide)).2.1⟩

/-- C6. Sender of the multi-threaded server and of the multi-threaded client, a
`send` that returns a negative number: the unit goes to the store of `false`;
that store is enabled, sets the flag to false and ends the unit; in every
interleaving from there on the unit has read no further input and made no
further send, being either about to store or returned with the flag false. -/
theorem C6_sender_send_failure (s : MTServer.Session) (c : MTClient.Client) (m : Msg) (ret : Int)
    (hs : s.spc = .send m) (hc : c.spc = .send m) (hret : ret < 0) :
    (MTServer.step s (.sendCall ret) = some { s with sent := s.sent ++ [m], spc := .fail }
      ∧ MTServer.step { s with sent := s.sent ++ [m], spc := .fail } .sendFail
          = some { s with sent := s.sent ++ [m], clientRunning := false, spc := .done }
      ∧ (∀ (acts : List MTServer.Action) (t : MTServer.Session),
          MTServer.run { s with sent := s.sent ++ [m], spc := .fail } acts = some t →
            t.inputReads = s.inputReads ∧ t.sent = s.sent ++ [m] ∧
            (t.spc = .fail ∨ (t.spc = .done ∧ t.clientRunning = false))))
    ∧ (MTClient.step c (.sendCall ret) = some { c with sent := c.sent ++ [m], spc := .fail }
      ∧ MTClient.step { c with sent := c.sent ++ [m], spc := .fail } .sendFail
          = some { c with sent := c.sent ++ [m], running := false, spc := .done }
      ∧ (∀ (acts : List MTClient.Action) (t : MTClient.Client),
          MTClient.run { c with sent := c.sent ++ [m], spc := .fail } acts = some t →
            t.inputReads = c.inputReads ∧ t.sent = c.sent ++ [m] ∧
            (t.spc = .fail ∨ (t.spc = .done ∧ t.running = false)))) := by
  refine ⟨⟨?_, ?_, ?_⟩, ?_, ?_, ?_⟩
  · simp [MTServer.step, hs, hret]
  · simp [MTServer.step]
  · intro acts t ht
    exact MTServer.run_invariant (MTServer.SendFailing s.inputReads (s.sent ++ [m]))
      (MTServer.sendFailing_step s.inputReads (s.sent ++ [m])) acts
      { s with sent := s.sent ++ [m], spc := .fail } t ⟨rfl, rfl, Or.inl rfl⟩ ht
  · simp [MTClient.step, hc, hret]
  · simp [MTClient.step]
  · intro acts t ht
    exact MTClient.client_run_invariant (MTClient.SendFailing c.inputReads (c.sent ++ [m]))
      (MTClient.client_sendFailing_step c.inputReads (c.sent ++ [m])) acts
      { c with sent := c.sent ++ [m], spc := .fail } t ⟨rfl, rfl, Or.inl rfl⟩ ht

/-- Witness of C6: both senders about to send `"hi"`, the send returning -1. -/
theorem C6_sender_send_failure_witness :
    (-1 : Int) < 0
    ∧ MTServer.run { MTServer.Session.start 4 with spc := .send [104, 105], inputReads := 1 }
          [.sendCall (-1), .sendFail]
        = some { MTServer.Session.start 4 with
                   clientRunning := false, spc := .done, inputReads := 1, sent := [[104, 105]] }
    ∧ MTClient.step { MTClient.Client.new with clientSocket := 3, spc := .send [104, 105],
                                               inputReads := 1 }
          (.sendCall (-1))
        = some { MTClient.Client.new with clientSocket := 3, spc := .fail, inputReads := 1,
                                          sent := [[104, 105]] } :=
  ⟨by decide, by decide,
   (C6_sender_send_failure
      { MTServer.Session.start 4 with spc := .send [104, 105], inputReads := 1 }
      { MTClient.Client.new with clientSocket := 3, spc := .send [104, 105], inputReads := 1 }
      [104, 105] (-1) rfl rfl (by decide)).2.1⟩

/-- C4, counterexample. Server session of handle 4: the sender tests the flag
(true) and blocks in `getline`; the receiver gets 0 bytes and stores `false`;
the sender then wakes with `"hi"`, which is no terminator, and hands it to
`send` before it tests the flag and stops.  The client does the same. -/
theorem C4_sender_transmits_after_close :
    MTServer.run (MTServer.Session.start 4)
        [.sendTest, .recvTest, .recvReturn (.bytes []), .recvStop]
      = some { clientSocket := 4, clientRunning := false, rpc := .done, spc := .input,
               recvCalls := 1, inputReads := 1, sent := [], closed := false }
    ∧ MTServer.run { clientSocket := 4, clientRunning := false, rpc := .done, spc := .input,
                     recvCalls := 1, inputReads := 1, sent := [], closed := false }
        [.sendInput [104, 105], .sendToken, .sendCall 2, .sendCheck]
      = some { clientSocket := 4, clientRunning := false, rpc := .done, spc := .done,
               recvCalls := 1, inputReads := 1, sent := [[104, 105]], closed := false }
    ∧ MTClient.run { MTClient.Client.new with clientSocket := 3 }
        [.sendTest, .recvTest, .recvReturn (.bytes []), .recvStop]
      = some { clientSocket := 3, running := false, rpc := .done, spc := .input,
               readCalls := 1, inputReads := 1, sent := [], closeCalls := [] }
    ∧ MTClient.run { clientSocket := 3, running := false, rpc := .done, spc := .input,
                     readCalls := 1, inputReads := 1, sent := [], closeCalls := [] }
        [.sendInput [104, 105], .sendToken, .sendCall 2, .sendCheck]
      = some { clientSocket := 3, running := false, rpc := .done, spc := .done,
               readCalls := 1, inputReads := 1, sent := [[104, 105]], closeCalls := [] }
    ∧ ([104, 105] : Msg) ≠ quitToken ∧ ([104, 105] : Msg) ≠ exitToken := by
  decide

/-- C4, amended. Sender of the multi-threaded server and of the multi-threaded
client, blocked in `getline` while the flag is already false: when it wakes
with a message `m` it reads no further input and, in every interleaving, has
handed to `send` either nothing yet or `m` alone; once it has stopped it has
sent `m` exactly once; and it does stop, after that one send, whatever the
send returns. -/
theorem C4_sender_sends_once_after_close (s : MTServer.Session) (c : MTClient.Client) (m : Msg)
    (hs : s.spc = .input) (hsf : s.clientRunning = false)
    (hc : c.spc = .input) (hcf : c.running = false) :
    (MTServer.step s (.sendInput m) = some { s with spc := .token m }
      ∧ (∀ (acts : List MTServer.Action) (t : MTServer.Session),
          MTServer.run { s with spc := .token m } acts = some t →
            t.inputReads = s.inputReads ∧ (t.sent = s.sent ∨ t.sent = s.sent ++ [m]) ∧
            (t.spc = .done → t.sent = s.sent ++ [m]))
      ∧ (∀ ret : Int,
          MTServer.run { s with spc := .token m }
              [.sendToken, .sendCall ret, if ret < 0 then .sendFail else .sendCheck]
            = some { s with sent := s.sent ++ [m], spc := .done }))
    ∧ (MTClient.step c (.sendInput m) = some { c with spc := .token m }
      ∧ (∀ (acts : List MTClient.Action) (t : MTClient.Client),
          MTClient.run { c with spc := .token m } acts = some t →
            t.inputReads = c.inputReads ∧ (t.sent = c.sent ∨ t.sent = c.sent ++ [m]) ∧
            (t.spc = .done → t.sent = c.sent ++ [m]))
      ∧ (∀ ret : Int,
          MTClient.run { c with spc := .token m }
              [.sendToken, .sendCall ret, if ret < 0 then .sendFail else .sendCheck]
            = some { c with sent := c.sent ++ [m], spc := .done })) := by
  refine ⟨⟨?_, ?_, ?_⟩, ?_, ?_, ?_⟩
  · simp [MTServer.step, hs]
  · intro acts t ht
    have hinv := MTServer.run_invariant (MTServer.SendLast s.inputReads s.sent m)
      (MTServer.sendLast_step s.inputReads s.sent m) acts { s with spc := .token m } t
      (Or.inl ⟨rfl, rfl, hsf, Or.inl rfl⟩) ht
    rcases hinv with ⟨h1, h2, -, h4⟩ | ⟨h1, h2, -⟩
    · refine ⟨h1, Or.inl h2, ?_⟩
      intro hd
      rcases h4 with h4 | h4 <;> simp [h4] at hd
    · exact ⟨h1, Or.inr h2, fun _ => h2⟩
  · intro ret
    by_cases hret : ret < 0
    · by_cases hm : m = quitToken <;>
        simp [MTServer.run, MTServer.step, hret, hm, hsf]
    · by_cases hm : m = quitToken <;>
        simp [MTServer.run, MTServer.step, hret, hm, hsf]
  · simp [MTClient.step, hc]
  · intro acts t ht
    have hinv := MTClient.client_run_invariant (MTClient.SendLast c.inputReads c.sent m)
      (MTClient.client_sendLast_step c.inputReads c.sent m) acts { c with spc := .token m } t
      (Or.inl ⟨rfl, rfl, hcf, Or.inl rfl⟩) ht
    rcases hinv with ⟨h1, h2, -, h4⟩ | ⟨h1, h2, -⟩
    · refine ⟨h1, Or.inl h2, ?_⟩
      intro hd
      rcases h4 with h4 | h4 <;> simp [h4] at hd
    · exact ⟨h1, Or.inr h2, fun _ => h2⟩
  · intro ret
    by_cases hret : ret < 0
    · by_cases hm : m = quitToken ∨ m = exitToken <;>
        simp [MTClient.run, MTClient.step, hret, hm, hcf]
    · by_cases hm : m = quitToken ∨ m = exitToken <;>
        simp [MTClient.run, MTClient.step, hret, hm, hcf]

/-- Witness of C4 amended: both senders blocked in `getline` with the flag
false, waking with `"hi"`; the send returns 2. -/
theorem C4_sender_sends_once_after_close_witness :
    MTServer.run { clientSocket := 4, clientRunning := false, rpc := .done, spc := .token [104, 105],
                   recvCalls := 1, inputReads := 1, sent := [], closed := false }
        [.sendToken, .sendCall 2, if (2 : Int) < 0 then .sendFail else .sendCheck]
      = some { clientSocket := 4, clientRunning := false, rpc := .done, spc := .done,
               recvCalls := 1, inputReads := 1, sent := [] ++ [[104, 105]], closed := false }
    ∧ MTClient.run { clientSocket := 3, running := false, rpc := .done, spc := .token [104, 105],
                     readCalls := 1, inputReads := 1, sent := [], closeCalls := [] }
        [.sendToken, .sendCall 2, if (2 : Int) < 0 then .sendFail else .sendCheck]
      = some { clientSocket := 3, running := false, rpc := .done, spc := .done,
               readCalls := 1, inputReads := 1, sent := [] ++ [[104, 105]], closeCalls := [] } :=
  ⟨(C4_sender_sends_once_after_close
      { clientSocket := 4, clientRunning := false, rpc := .done, spc := .input,
        recvCalls := 1, inputReads := 1, sent := [], closed := false }
      { clientSocket := 3, running := false, rpc := .done, spc := .input,
        readCalls := 1, inputReads := 1, sent := [], closeCalls := [] }
      [104, 105] rfl rfl rfl rfl).1.2.2 2,
   (C4_sender_sends_once_after_close
      { clientSocket := 4, clientRunning := false, rpc := .done, spc := .input,
        recvCalls := 1, inputReads := 1, sent := [], closed := false }
      { clientSocket := 3, running := false, rpc := .done, spc := .input,
        readCalls := 1, inputReads := 1, sent := [], closeCalls := [] }
      [104, 105] rfl rfl rfl rfl).2.2.2 2⟩

/-- The senders on a terminator obtained from input, where the code tests for
it (`"quit()"` in the server; `"quit()"` and `"exit()"` in the client): the
token test stores `false` into the flag, and in every interleaving from there
on the unit reads no further input and hands to `send` nothing but that token,
at most once. -/
theorem sender_tested_terminator (s : MTServer.Session) (c : MTClient.Client) (m : Msg)
    (hs : s.spc = .token quitToken) (hc : c.spc = .token m)
    (hm : m = quitToken ∨ m = exitToken) :
    (MTServer.step s .sendToken = some { s with clientRunning := false, spc := .send quitToken }
      ∧ (∀ (acts : List MTServer.Action) (t : MTServer.Session),
          MTServer.run { s with clientRunning := false, spc := .send quitToken } acts = some t →
            t.inputReads = s.inputReads ∧ (t.sent = s.sent ∨ t.sent = s.sent ++ [quitToken]) ∧
            (t.spc = .done → t.sent = s.sent ++ [quitToken] ∧ t.clientRunning = false)))
    ∧ (MTClient.step c .sendToken = some { c with running := false, spc := .send m }
      ∧ (∀ (acts : List MTClient.Action) (t : MTClient.Client),
          MTClient.run { c with running := false, spc := .send m } acts = some t →
            t.inputReads = c.inputReads ∧ (t.sent = c.sent ∨ t.sent = c.sent ++ [m]) ∧
            (t.spc = .done → t.sent = c.sent ++ [m] ∧ t.running = false))) := by
  refine ⟨⟨?_, ?_⟩, ?_, ?_⟩
  · simp [MTServer.step, hs]
  · intro acts t ht
    have hinv := MTServer.run_invariant (MTServer.SendLast s.inputReads s.sent quitToken)
      (MTServer.sendLast_step s.inputReads s.sent quitToken) acts
      { s with clientRunning := false, spc := .send quitToken } t
      (Or.inl ⟨rfl, rfl, rfl, Or.inr rfl⟩) ht
    rcases hinv with ⟨h1, h2, -, h4⟩ | ⟨h1, h2, h3⟩
    · refine ⟨h1, Or.inl h2, ?_⟩
      intro hd
      rcases h4 with h4 | h4 <;> simp [h4] at hd
    · refine ⟨h1, Or.inr h2, fun hd => ⟨h2, ?_⟩⟩
      rcases h3 with h3 | ⟨h3, -⟩ | ⟨-, h3⟩
      · simp [h3] at hd
      · simp [h3] at hd
      · exact h3
  · simp [MTClient.step, hc, hm]
  · intro acts t ht
    have hinv := MTClient.client_run_invariant (MTClient.SendLast c.inputReads c.sent m)
      (MTClient.client_sendLast_step c.inputReads c.sent m) acts
      { c with running := false, spc := .send m } t
      (Or.inl ⟨rfl, rfl, rfl, Or.inr rfl⟩) ht
    rcases hinv with ⟨h1, h2, -, h4⟩ | ⟨h1, h2, h3⟩
    · refine ⟨h1, Or.inl h2, ?_⟩
      intro hd
      rcases h4 with h4 | h4 <;> simp [h4] at hd
    · refine ⟨h1, Or.inr h2, fun hd => ⟨h2, ?_⟩⟩
      rcases h3 with h3 | ⟨h3, -⟩ | ⟨-, h3⟩
      · simp [h3] at hd
      · simp [h3] at hd
      · exact h3

/-- C5 (the server's sender misses `"exit()"`). The server's sender holds the
line `"exit()"` with the flag true: its token test leaves the flag true, it
sends the token, finds the flag true in its final test, and goes round the loop
into the next `getline`.  The client's sender, on the same line, stores
`false` and stops after the one send. -/
theorem C5_server_sender_ignores_exit :
    MTServer.run { MTServer.Session.start 4 with spc := .token exitToken, inputReads := 1 }
        [.sendToken, .sendCall 6, .sendCheck, .sendTest]
      = some { clientSocket := 4, clientRunning := true, rpc := .loop, spc := .input,
               recvCalls := 0, inputReads := 2, sent := [exitToken], closed := false }
    ∧ MTClient.run { MTClient.Client.new with clientSocket := 3, spc := .token exitToken,
                                              inputReads := 1 }
        [.sendToken, .sendCall 6, .sendCheck]
      = some { clientSocket := 3, running := false, rpc := .loop, spc := .done,
               readCalls := 0, inputReads := 1, sent := [exitToken], closeCalls := [] } := by
  decide

/-! ## Closing the client's connection handle -/

/-- In both clients `closeConnection` on an object whose `clientSocket` is
negative changes nothing, and on a handle `h ≥ 0` it makes one close call on
`h` and resets `clientSocket` to -1, so that a second call changes nothing. -/
theorem closeConnection_guard (m : MTClient.Client) (c : STClient.Client) :
    (m.clientSocket < 0 → MTClient.closeConnection m = m)
    ∧ (c.clientSocket < 0 → STClient.closeConnection c = c)
    ∧ (0 ≤ m.clientSocket →
        MTClient.closeConnection m
            = { m with closeCalls := m.closeCalls ++ [m.clientSocket], clientSocket := -1 }
        ∧ MTClient.closeConnection (MTClient.closeConnection m) = MTClient.closeConnection m)
    ∧ (0 ≤ c.clientSocket →
        STClient.closeConnection c
            = { c with closeCalls := c.closeCalls ++ [c.clientSocket], clientSocket := -1 }
        ∧ STClient.closeConnection (STClient.closeConnection c) = STClient.closeConnection c) := by
  refine ⟨?_, ?_, ?_, ?_⟩
  · intro h
    simp [MTClient.closeConnection, not_le.mpr h]
  · intro h
    simp [STClient.closeConnection, not_le.mpr h]
  · intro h
    simp [MTClient.closeConnection, h]
  · intro h
    simp [STClient.closeConnection, h]

/-- C10 (the clients close a handle twice, or close -1). Runs of `main` with
the close calls they make, in order.  Multi-threaded client: `connect` fails on
handle 3: close calls `3, 3`; `socket` fails: one close call on -1; `connect`
succeeds, the server closes, `communicate` returns: close calls `3, -1`.
Single-threaded client: `connect` fails on handle 3: close calls `3, 3`;
`connect` succeeds and the user types `"quit()"`: the one close call `3`. -/
theorem C10_client_close_calls :
    (MTClient.main 3 (-1) []).map (fun c => c.closeCalls) = some [3, 3]
    ∧ (MTClient.main (-1) 0 []).map (fun c => c.closeCalls) = some [-1]
    ∧ (MTClient.main 3 0 [.recvTest, .recvReturn (.bytes []), .recvStop, .sendTest]).map
        (fun c => c.closeCalls) = some [3, -1]
    ∧ (STClient.main 3 (-1) [] []).map (fun c => c.closeCalls) = some [3, 3]
    ∧ (STClient.main (-1) 0 [] []).map (fun c => c.closeCalls) = some []
    ∧ (STClient.main 3 0 [quitToken] []).map (fun c => c.closeCalls) = some [3] := by
  decide

/-! ## Empty lines of input -/

/-- C11 (the multi-threaded client sends the empty line). Single-threaded
client: on an empty line `communicate` sends nothing and goes on with the next
line, whatever follows.  Multi-threaded client: `sendMessages` has no test for
the empty line; woken with the empty line it calls `send` with it (zero bytes),
and only then goes round the loop into the next `getline`. -/
theorem C11_empty_line (c : STClient.Client) (lines : List Msg) (results : List RecvResult) :
    STClient.communicate c ([] :: lines) results
      = STClient.communicate { c with inputReads := c.inputReads + 1 } lines results
    ∧ MTClient.run { MTClient.Client.new with clientSocket := 3, spc := .input, inputReads := 1 }
        [.sendInput [], .sendToken, .sendCall 0, .sendCheck, .sendTest]
      = some { clientSocket := 3, running := true, rpc := .loop, spc := .input,
               readCalls := 0, inputReads := 2, sent := [[]], closeCalls := [] } := by
  refine ⟨?_, by decide⟩
  simp [STClient.communicate]

/-- The sender of the multi-threaded client holding any line that is no
terminator, the empty line included: the line is handed to `send`, and after a
send that did not fail the loop goes on if the flag is still true. -/
theorem client_sender_plain_line (c : MTClient.Client) (m : Msg) (ret : Int)
    (hc : c.spc = .token m) (hq : m ≠ quitToken) (he : m ≠ exitToken) (hret : 0 ≤ ret) :
    MTClient.run c [.sendToken, .sendCall ret]
      = some { c with sent := c.sent ++ [m], spc := .check }
    ∧ (c.running = true →
        MTClient.run c [.sendToken, .sendCall ret, .sendCheck]
          = some { c with sent := c.sent ++ [m], spc := .loop }) := by
  have hret1 : ¬ ret < 0 := not_lt.mpr hret
  refine ⟨?_, ?_⟩
  · simp [MTClient.run, MTClient.step, hc, hq, he, hret1]
  · intro hrun
    simp [MTClient.run, MTClient.step, hc, hq, he, hret1, hrun]

/-! ## What the server's receiver takes for a terminator -/

/-- A payload without NUL byte is compared whole: when it is not exactly a
token, as a token followed by further non-NUL bytes, it is not taken for one. -/
theorem takeWhile_no_nul (payload : Msg) (h : ∀ b ∈ payload, b ≠ 0) :
    payload.takeWhile (fun b => b != 0) = payload := by
  rw [List.takeWhile_eq_self_iff]
  intro b hb
  simpa using h b hb

/-! ## The NUL written after the received bytes -/

/-- The buffer before and after the write `buffer[bytesRead] = 0`, for a receive
of `0 < n ≤ 1023` bytes. -/
theorem buffer_before_after (payload : Msg) (hmax : payload.length ≤ MAXRECV) :
    (RecvResult.bytes payload).buffer
        = some (payload ++ List.replicate (MAXRECV - payload.length + 1) 0)
    ∧ bufferSet (payload ++ List.replicate (MAXRECV - payload.length + 1) 0)
          (RecvResult.bytes payload).bytesRead.toNat 0
        = some (payload ++ 0 :: List.replicate (MAXRECV - payload.length) 0) := by
  have e : BUFSIZE - payload.length = (MAXRECV - payload.length) + 1 := by
    simp only [MAXRECV, BUFSIZE] at hmax ⊢
    omega
  refine ⟨?_, ?_⟩
  · simp only [RecvResult.buffer]
    rw [recvInto_memsetZero payload hmax, e]
  · simp only [RecvResult.bytesRead, Int.toNat_ofNat]
    exact bufferSet_after_payload payload _ 0

/-- What the body of the client's `receiveMessages` does with a receive of
`0 < n ≤ 1023` bytes, whatever they are: it displays them and goes back to the
head of the loop; no token is looked for and the flag is not touched. -/
theorem client_receiveMessages_bytes (c : MTClient.Client) (payload : Msg)
    (hpos : 0 < payload.length) (hmax : payload.length ≤ MAXRECV) :
    MTClient.receiveMessages c (.bytes payload) = some { c with rpc := .loop } := by
  obtain ⟨hbefore, hafter⟩ := buffer_before_after payload hmax
  have hgt : (RecvResult.bytes payload).bytesRead > 0 := by
    simpa [RecvResult.bytesRead] using hpos
  simp only [MTClient.receiveMessages, hbefore, Option.some_bind, hgt, if_true, hafter,
    Option.map_some']

/-- C3, counterexample. The client's receiver has no terminator path on which
the flag would reach the value of the EOF path: on a receive of 0 bytes it
stores `false` and returns, while on a receive of `"quit()"` it leaves
`running` true, goes round the loop and calls `read` again. -/
theorem C3_client_receiver_ignores_terminator :
    MTClient.run { MTClient.Client.new with clientSocket := 3, rpc := .read, readCalls := 1 }
        [.recvReturn (.bytes []), .recvStop]
      = some { MTClient.Client.new with
                 clientSocket := 3, running := false, rpc := .done, readCalls := 1 }
    ∧ MTClient.run { MTClient.Client.new with clientSocket := 3, rpc := .read, readCalls := 1 }
        [.recvReturn (.bytes quitToken), .recvTest]
      = some { MTClient.Client.new with
                 clientSocket := 3, running := true, rpc := .read, readCalls := 2 } := by
  refine ⟨by decide, ?_⟩
  have h := client_receiveMessages_bytes
    { MTClient.Client.new with clientSocket := 3, rpc := .read, readCalls := 1 }
    quitToken (by decide) (by decide)
  simp only [MTClient.run, MTClient.step, if_true, h]
  decide

/-- C13. A receive of `0 < n ≤ 1023` bytes, in each of the four programs: the
index `n` of the write `buffer[n] = 0` is below the buffer size 1024; the write
changes nothing but that index, so the buffer keeps its size and its first `n`
bytes are the received ones before and after it; and the receive path of each
program goes through that write and carries on. -/
theorem C13_nul_write_in_bounds (payload : Msg)
    (hpos : 0 < payload.length) (hmax : payload.length ≤ MAXRECV) :
    (RecvResult.bytes payload).bytesRead.toNat = payload.length
    ∧ payload.length < BUFSIZE
    ∧ (∃ before after : List Byte,
        (RecvResult.bytes payload).buffer = some before
        ∧ bufferSet before (RecvResult.bytes payload).bytesRead.toNat 0 = some after
        ∧ before.length = BUFSIZE ∧ after.length = BUFSIZE
        ∧ before.take payload.length = payload
        ∧ after.take payload.length = payload
        ∧ after[payload.length]? = some 0
        ∧ after.drop (payload.length + 1) = before.drop (payload.length + 1))
    ∧ (∀ s : MTServer.Session, (MTServer.receiveMessages s (.bytes payload)).isSome = true)
    ∧ (∀ c : MTClient.Client,
        MTClient.receiveMessages c (.bytes payload) = some { c with rpc := .loop })
    ∧ (∀ (c : STClient.Client) (message : Msg) (lines : List Msg) (results : List RecvResult),
        message ≠ [] → message ≠ quitToken →
        STClient.communicate c (message :: lines) (.bytes payload :: results)
          = STClient.communicate
              { c with inputReads := c.inputReads + 1, sent := c.sent ++ [message],
                       recvCalls := c.recvCalls + 1 } lines results)
    ∧ (∀ (sv : STServer.Server) (message : Msg) (lines : List Msg) (results : List RecvResult),
        sv.running = true →
        STServer.communicationLoop sv (.bytes payload :: results) (message :: lines)
          = if payload.takeWhile (fun b => b != 0) == quitToken then
              some { sv with recvCalls := sv.recvCalls + 1 }
            else
              STServer.communicationLoop
                { sv with recvCalls := sv.recvCalls + 1, inputReads := sv.inputReads + 1,
                          sent := sv.sent ++ [message] } results lines) := by
  obtain ⟨hbefore, hafter⟩ := buffer_before_after payload hmax
  have hlen : (0 : Int) < (payload.length : Int) := by exact_mod_cast hpos
  have hgt : (RecvResult.bytes payload).bytesRead > 0 := by
    simpa [RecvResult.bytesRead] using hpos
  have hsize : payload.length + (MAXRECV - payload.length + 1) = BUFSIZE := by
    simp only [MAXRECV, BUFSIZE] at hmax ⊢
    omega
  refine ⟨by simp [RecvResult.bytesRead], ?_, ?_, ?_, ?_, ?_, ?_⟩
  · simp only [MAXRECV, BUFSIZE] at hmax ⊢
    omega
  · refine ⟨_, _, hbefore, hafter, ?_, ?_, ?_, ?_, ?_, ?_⟩
    · simp [hsize]
    · simp only [List.length_append, List.length_cons, List.length_replicate]
      omega
    · simp
    · simp
    · rw [List.getElem?_append_right (Nat.le_refl _)]
      simp
    · simp [List.drop_append, List.replicate_succ]
  · intro s
    rw [MTServer.receiveMessages_bytes s payload hpos hmax]
    rfl
  · intro c
    simp only [MTClient.receiveMessages, hbefore, Option.some_bind, hgt, if_true, hafter,
      Option.map_some']
  · intro c message lines results hne hnq
    have hemp : message.isEmpty = false := by
      cases message with
      | nil => exact absurd rfl hne
      | cons b rest => rfl
    rw [STClient.communicate]
    simp only [hemp, Bool.false_eq_true, if_false, hnq, hbefore, hgt, if_true, hafter]
  · intro sv message lines results hrun
    rw [STServer.communicationLoop]
    simp only [hrun, if_true, hbefore, hgt, hafter, strcmpEq, cstr_append_nul]

/-- Witness of C13: the five bytes `"hello"` received by the multi-threaded client. -/
theorem C13_nul_write_in_bounds_witness :
    (0 < ([104, 101, 108, 108, 111] : Msg).length)
    ∧ ([104, 101, 108, 108, 111] : Msg).length < BUFSIZE
    ∧ MTClient.receiveMessages
          { MTClient.Client.new with clientSocket := 3, rpc := .read, readCalls := 1 }
          (.bytes [104, 101, 108, 108, 111])
        = some { MTClient.Client.new with clientSocket := 3, rpc := .loop, readCalls := 1 } :=
  ⟨by decide,
   (C13_nul_write_in_bounds [104, 101, 108, 108, 111] (by decide) (by decide)).2.1,
   (C13_nul_write_in_bounds [104, 101, 108, 108, 111] (by decide) (by decide)).2.2.2.2.1 _⟩

end WebSocket
